import Mathlib

/-!
Verification model of the FleetPride catalog scraper
(`src/fleetpride_scraper.py`).  The headless browser, the DOM parser and
the JSON parser are external capabilities of the program; a `Document`
is therefore modelled by the query results the scraper consumes (CSS
selector queries returning elements, the page text, and the parse
attempts of the embedded JSON-LD scripts), and the page fetcher is
modelled as an environment function.  The extraction cascades, the
pagination loops, the per-category cap and the visited-set discipline
are translated directly from the source.
-/

namespace FleetPride

/-! ### Python string helpers -/

/-- The characters stripped by Python `str.strip()` (ASCII whitespace,
matching the `\s` class for ASCII text). -/
def pyIsSpace (c : Char) : Bool :=
  c = ' ' || c = '\t' || c = '\n' || c = '\r' || c = '\x0b' || c = '\x0c'

/-- Python `str.strip()` on a character list. -/
def stripChars (cs : List Char) : List Char :=
  ((cs.dropWhile pyIsSpace).reverse.dropWhile pyIsSpace).reverse

/-- Python `str.strip()`. -/
def pyStrip (s : String) : String := String.mk (stripChars s.data)

/-- Python `str.rstrip(":")`: drops every trailing colon. -/
def pyRstripColon (s : String) : String :=
  String.mk ((s.data.reverse.dropWhile (· = ':')).reverse)

/-- Python digit test for the regex class `\d` over ASCII text. -/
def isDigitChar (c : Char) : Bool := '0' ≤ c && c ≤ '9'

/-! ### JSON values

The scraper parses each `script[type="application/ld+json"]` block with
`json.loads` inside a `try` and duck-types the result.  A failed parse
is `none`; a successful one is a `Json` value. -/

inductive Json where
  | null
  | str (s : String)
  | num (n : Int)
  | arr (items : List Json)
  | obj (fields : List (String × Json))

/-- Lookup in a parsed JSON object (Python `dict` keys are unique, so an
association-list lookup is the model of `data.get(key)`). -/
def lookupField (k : String) : List (String × Json) → Option Json
  | [] => none
  | (k', v) :: rest => if k' = k then some v else lookupField k rest

/-- Python `data.get(key)` on a parsed value: `none` when the value is
not a dict or the key is absent. -/
def Json.get (j : Json) (k : String) : Option Json :=
  match j with
  | .obj fields => lookupField k fields
  | _ => none

/-- Python `key in data` for a parsed dict. -/
def Json.hasKey (j : Json) (k : String) : Bool :=
  match j with
  | .obj fields => fields.any (fun kv => kv.1 = k)
  | _ => false

/-- Python truthiness of a JSON value (`None`, `""`, `0`, `[]` and the
empty dict are falsy). -/
def Json.truthy : Json → Bool
  | .null => false
  | .str s => s ≠ ""
  | .num n => n ≠ 0
  | .arr items => !items.isEmpty
  | .obj fields => !fields.isEmpty

/-- Python equality test `value == "Product"` (a non-string JSON value
never equals a string). -/
def isStrEq (j : Json) (t : String) : Bool :=
  match j with
  | .str s => s = t
  | _ => false

/-- Rendering of a JSON value where Python interpolates it into an
f-string.  Faithful for strings and integers, which are the values the
theorems exercise; the rendering of compound values is abstracted. -/
def pyRender : Json → String
  | .null => "None"
  | .str s => s
  | .num n => toString n
  | .arr _ => "[...]"
  | .obj _ => "dict"

/-- Model of `return <json value>` in a function annotated
`-> str | None`: Python hands `None` through and returns other values
(strings in every intended case) unchanged. -/
def jsonToOptStr : Json → Option String
  | .null => none
  | j => some (pyRender j)

/-! ### Elements and documents

An element models what the code reads from a BeautifulSoup tag: its
stripped text (`get_text(strip=True)`), its attributes (`tag.get`)
and selector queries inside it (`tag.select`). -/

inductive Elem where
  | mk (text : String) (attr : String → Option String) (sub : String → List Elem)

def Elem.text : Elem → String
  | .mk t _ _ => t

def Elem.attr : Elem → String → Option String
  | .mk _ a _, n => a n

def Elem.sub : Elem → String → List Elem
  | .mk _ _ s, n => s n

/-- Model of `tag.select_one(sel)`: the first result of `tag.select(sel)`. -/
def Elem.selectOne (e : Elem) (sel : String) : Option Elem :=
  (e.sub sel).head?

/-- A parsed page: `text` is `soup.get_text()`, `sel` is `soup.select`,
and `ldScripts` holds the `json.loads` attempt for each
`script[type="application/ld+json"]` block in document order. -/
structure Document where
  text : List Char
  sel : String → List Elem
  ldScripts : List (Option Json)

/-- Model of `soup.select_one(sel)`: the first result of `soup.select(sel)`. -/
def Document.selectOne (d : Document) (sel : String) : Option Elem :=
  (d.sel sel).head?

/-! ### `_extract_features` (source lines 838-894) -/

/-- The feature list selectors tried in order (source lines 844-853). -/
def featureSelectors : List String :=
  [".product-features li",
   ".features-list li",
   ".benefits-list li",
   ".feature-list li",
   "[class*=\"feature\"] li",
   "[class*=\"benefit\"] li",
   ".product-highlights li",
   ".key-features li"]

/-- One step of the feature accumulation: append the text when the
guard holds and the text is not already present (`text not in
features`). -/
def addUnique (cond : String → Bool) (acc : List String) (t : String) : List String :=
  if cond t && !(acc.contains t) then acc ++ [t] else acc

/-- Guard of the first two feature phases:
`text and len(text) > 3`. -/
def featCondShort (t : String) : Bool := t ≠ "" && t.length > 3

/-- Guard of the rich-text phase:
`text and len(text) > 3 and len(text) < 200`. -/
def featCondRich (t : String) : Bool := t ≠ "" && t.length > 3 && t.length < 200

/-- The three selector-driven phases of `_extract_features`: the
feature-selector family loop, the description bullet lists and the
rich-text bullet lists, all deduplicating against the accumulated
list. -/
def featuresSelectorPhase (d : Document) : List String :=
  let s1 := featureSelectors.foldl
    (fun acc sel => ((d.sel sel).map Elem.text).foldl (addUnique featCondShort) acc) []
  let s2 := ((d.sel ".product-description ul li, .description ul li").map Elem.text).foldl
    (addUnique featCondShort) s1
  ((d.sel ".slds-rich-text-editor__output ul li").map Elem.text).foldl
    (addUnique featCondRich) s2

/-- One `additionalProperty` entry: when the entry is a dict whose
`name` and `value` are truthy, append `f"{name}: {value}"` — with no
membership check (source line 890). -/
def addLdProp (acc : List String) (p : Json) : List String :=
  match p with
  | .obj _ =>
    let name := (p.get "name").getD (.str "")
    let value := (p.get "value").getD (.str "")
    if name.truthy && value.truthy then
      acc ++ [pyRender name ++ ": " ++ pyRender value]
    else acc
  | _ => acc

/-- The contribution of one parsed script to the feature list: a dict
with `@type == "Product"` has its `additionalProperty` walked when that
field is a list (the `data.get('additionalProperty', [])` default makes
the absent case an empty walk); any other script contributes nothing. -/
def ldScriptFeatures (acc : List String) : Option Json → List String
  | none => acc
  | some j =>
    match j with
    | .obj _ =>
      if isStrEq ((j.get "@type").getD .null) "Product" then
        match j.get "additionalProperty" with
        | some (.arr items) => items.foldl addLdProp acc
        | _ => acc
      else acc
    | _ => acc

/-- The JSON-LD phase of `_extract_features`: every script block in
document order. -/
def ldFeatures (acc : List String) : List (Option Json) → List String
  | [] => acc
  | script :: rest => ldFeatures (ldScriptFeatures acc script) rest

/-- Model of `_extract_features`: the selector phases followed by the JSON-LD
additional-property phase. -/
def extract_features (d : Document) : List String :=
  ldFeatures (featuresSelectorPhase d) d.ldScripts

/-- A document whose only content is one JSON-LD product block carrying
the same name/value property twice. -/
def docC1 : Document :=
  ⟨[], fun _ => [],
   [some (.obj [("@type", .str "Product"),
                ("additionalProperty",
                 .arr [.obj [("name", .str "Color"), ("value", .str "Red")],
                       .obj [("name", .str "Color"), ("value", .str "Red")]])])]⟩

/-! ### Regex matching primitives

The regex patterns the scraper uses are implemented as deterministic
character-list matchers.  Each pattern's quantified pieces are followed
only by pieces starting with characters disjoint from the quantified
class (or by nothing), so the greedy/lazy deterministic readings below
coincide with Python `re` backtracking semantics; ordered alternation
is implemented by trying the alternatives in the pattern's order. -/

/-- Consume one expected character. -/
def expectChar (c : Char) : List Char → Option (List Char)
  | [] => none
  | c' :: rest => if c' = c then some rest else none

/-- Consume a case-sensitive literal. -/
def stripLit? : List Char → List Char → Option (List Char)
  | [], cs => some cs
  | _ :: _, [] => none
  | l :: ls, c :: cs => if c = l then stripLit? ls cs else none

/-- Consume a case-insensitive literal (the `re.I` flag). -/
def ciStripLit? : List Char → List Char → Option (List Char)
  | [], cs => some cs
  | _ :: _, [] => none
  | l :: ls, c :: cs => if c.toLower = l.toLower then ciStripLit? ls cs else none

/-- Consume `\s*`. -/
def dropSpaces (cs : List Char) : List Char := cs.dropWhile pyIsSpace

/-- Model of `re.search`: try the position matcher at every position from the
left, the position at the end of the text included. -/
def searchWith (m : List Char → Option (List Char)) : List Char → Option (List Char)
  | [] => m []
  | c :: rest =>
    match m (c :: rest) with
    | some g => some g
    | none => searchWith m rest

/-- Greedy `\d{1,n}`: up to `n` digits, with the rest of the input. -/
def takeDigitsUpTo : Nat → List Char → List Char × List Char
  | 0, cs => ([], cs)
  | _ + 1, [] => ([], [])
  | n + 1, c :: rest =>
    if isDigitChar c then
      (c :: (takeDigitsUpTo n rest).1, (takeDigitsUpTo n rest).2)
    else ([], c :: rest)

/-- Greedy `(?:,\d{3})*`: thousands-separator groups. -/
def commaGroups : List Char → List Char × List Char
  | ',' :: d1 :: d2 :: d3 :: rest =>
    if isDigitChar d1 && isDigitChar d2 && isDigitChar d3 then
      (',' :: d1 :: d2 :: d3 :: (commaGroups rest).1, (commaGroups rest).2)
    else ([], ',' :: d1 :: d2 :: d3 :: rest)
  | cs => ([], cs)

/-- Greedy `(?:\.\d{2})?`: an optional two-decimal tail. -/
def decimalOpt : List Char → List Char × List Char
  | '.' :: d1 :: d2 :: rest =>
    if isDigitChar d1 && isDigitChar d2 then (['.', d1, d2], rest)
    else ([], '.' :: d1 :: d2 :: rest)
  | cs => ([], cs)

/-- Whether the input starts with a digit (used to state where the
price amount cannot extend to the right). -/
def headNotDigit : List Char → Bool
  | [] => true
  | c :: _ => !isDigitChar c

/-- Whether the input starts with a `,ddd` thousands group. -/
def startsCommaGroup : List Char → Bool
  | ',' :: d1 :: d2 :: d3 :: _ => isDigitChar d1 && isDigitChar d2 && isDigitChar d3
  | _ => false

/-- Whether the input starts with a `.dd` decimal tail. -/
def startsDecimal : List Char → Bool
  | '.' :: d1 :: d2 :: _ => isDigitChar d1 && isDigitChar d2
  | _ => false

/-- Position matcher of the first price pattern
`\$(\d{1,3}(?:,\d{3})*(?:\.\d{2})?)`, returning the capture group. -/
def matchP1At : List Char → Option (List Char)
  | [] => none
  | c :: rest =>
    if c = '$' then
      let ds := (takeDigitsUpTo 3 rest).1
      let r1 := (takeDigitsUpTo 3 rest).2
      if ds.isEmpty then none
      else some (ds ++ (commaGroups r1).1 ++ (decimalOpt (commaGroups r1).2).1)
    else none

/-- Position matcher of the second price pattern
`Your Price[:\s]*\$(\d+\.?\d*)`, returning the capture group. -/
def matchP2At (cs : List Char) : Option (List Char) :=
  match stripLit? "Your Price".data cs with
  | none => none
  | some r1 =>
    match r1.dropWhile (fun c => c = ':' || pyIsSpace c) with
    | '$' :: r3 =>
      let ds := r3.takeWhile isDigitChar
      if ds.isEmpty then none
      else
        match r3.drop ds.length with
        | '.' :: r4 => some (ds ++ '.' :: r4.takeWhile isDigitChar)
        | _ => some ds
    | _ => none

/-- Position matcher of the selector-branch price pattern
`\$[\d,]+\.?\d*`, returning the whole match (`group()`). -/
def matchLooseAt : List Char → Option (List Char)
  | [] => none
  | c :: rest =>
    if c = '$' then
      let g1 := rest.takeWhile (fun c' => isDigitChar c' || c' = ',')
      if g1.isEmpty then none
      else
        match rest.drop g1.length with
        | '.' :: r2 => some ('$' :: g1 ++ '.' :: r2.takeWhile isDigitChar)
        | _ => some ('$' :: g1)
    else none

/-! ### `_extract_price` (source lines 692-748) -/

/-- Model of `if not price_val.startswith("$"): return f"${price_val}"`. -/
def dollarize (v : String) : String :=
  match v.data with
  | '$' :: _ => v
  | _ => "$" ++ v

/-- A cascade over a selector list: the first selector whose strategy
yields a value wins, selectors whose strategy yields nothing are
skipped (the `for selector in selectors` loops with early `return`). -/
def firstSome {α : Type} (f : String → Option α) : List String → Option α
  | [] => none
  | s :: rest =>
    match f s with
    | some v => some v
    | none => firstSome f rest

/-- The price selectors tried in order (source lines 712-716). -/
def priceSelectors : List String :=
  [".your-price", ".price", ".product-price", "[itemprop=\"price\"]",
   ".current-price", ".sale-price", "[data-price]",
   ".regular-price", ".special-price", ".offer-price"]

/-- The `float` conversion and two-decimal dollar formatting of a JSON
value (`f"${float(price):.2f}"`): delegated to the floating-point
formatter `ff`; a non-numeric value raises, which the caller catches. -/
def jsonFloatFmt (ff : String → Option String) : Json → Option String
  | .str s => ff s
  | .num n => ff (toString n)
  | _ => none

/-- The per-element price strategy: a truthy `content` attribute is
formatted as a float (a `ValueError` falls through), then the element
text is searched for `\$[\d,]+\.?\d*`. -/
def priceFromElem (ff : String → Option String) (e : Elem) : Option String :=
  let fromContent :=
    match e.attr "content" with
    | some c => if c ≠ "" then ff c else none
    | none => none
  match fromContent with
  | some s => some s
  | none =>
    match searchWith matchLooseAt e.text.data with
    | some g => some (String.mk g)
    | none => none

/-- The JSON-LD offer-price strategy: the first parsed dict with
`@type == "Product"` whose `offers` dict carries a truthy `price` that
formats as a float wins; every failure mode skips to the next
script. -/
def priceFromScripts (ff : String → Option String) : List (Option Json) → Option String
  | [] => none
  | script :: rest =>
    match script with
    | some j =>
      match j with
      | .obj _ =>
        if isStrEq ((j.get "@type").getD .null) "Product" then
          let offers := (j.get "offers").getD (.obj [])
          match offers with
          | .obj _ =>
            let price := (offers.get "price").getD .null
            if price.truthy then
              match jsonFloatFmt ff price with
              | some s => some s
              | none => priceFromScripts ff rest
            else priceFromScripts ff rest
          | _ => priceFromScripts ff rest
        else priceFromScripts ff rest
      | _ => priceFromScripts ff rest
    | none => priceFromScripts ff rest

/-- Model of `_extract_price`: the two free-text patterns (both carry one
capture group, so `match.lastindex` is set and `group(1)` is taken and
prefixed with `$` when needed), then the selector cascade, then the
JSON-LD offer price.  `ff` abstracts Python float parsing/formatting. -/
def extract_price (ff : String → Option String) (d : Document) : Option String :=
  match searchWith matchP1At d.text with
  | some g => some (dollarize (String.mk g))
  | none =>
    match searchWith matchP2At d.text with
    | some g => some (dollarize (String.mk g))
    | none =>
      match firstSome (fun sel => (d.selectOne sel).bind (priceFromElem ff)) priceSelectors with
      | some s => some s
      | none => priceFromScripts ff d.ldScripts

/-! ### `_extract_part_number` (source lines 538-615) -/

/-- The character class `[A-Z0-9\-]` under `re.I`. -/
def isPartChar (c : Char) : Bool :=
  ('A' ≤ c && c ≤ 'Z') || ('a' ≤ c && c ≤ 'z') || isDigitChar c || c = '-'

/-- Greedy one-or-more repetition of a character class, as a capture
group. -/
def takeClass1 (p : Char → Bool) (cs : List Char) : Option (List Char) :=
  let g := cs.takeWhile p
  if g.isEmpty then none else some g

/-- Position matcher of `Part\s*#:\s*([A-Z0-9\-]+)` under `re.I`
(source line 552), returning the capture group. -/
def matchPartHashAt (cs : List Char) : Option (List Char) :=
  match ciStripLit? "Part".data cs with
  | none => none
  | some r1 =>
    match expectChar '#' (dropSpaces r1) with
    | none => none
    | some r2 =>
      match expectChar ':' r2 with
      | none => none
      | some r3 => takeClass1 isPartChar (dropSpaces r3)

/-- The part-number selectors tried in order (source lines 558-564). -/
def pnSelectors : List String :=
  [".part-number", ".product-part-number", "#part-number",
   "[data-part-number]", ".sku", ".product-sku",
   "[itemprop=\"sku\"]", "[itemprop=\"productID\"]",
   ".item-number", ".product-id", ".mpn",
   "[data-sku]", "[data-product-id]", "[data-mpn]"]

/-- Consume an optional literal character (`#?`, `:?`). -/
def optChar (c : Char) : List Char → List Char
  | [] => []
  | c' :: rest => if c' = c then rest else c' :: rest

/-- The anchored prefix of
`^(Part\s*#?:?\s*|SKU:?\s*|Item\s*#?:?\s*|MPN:?\s*)` under `re.I`:
ordered alternation (the four labels start with distinct letters), each
alternative a case-insensitive literal with optional marks and
whitespace. -/
def pnPrefixMatch (cs : List Char) : Option (List Char) :=
  ((ciStripLit? "Part".data cs).map
    (fun r => dropSpaces (optChar ':' (optChar '#' (dropSpaces r))))) <|>
  ((ciStripLit? "SKU".data cs).map (fun r => dropSpaces (optChar ':' r))) <|>
  ((ciStripLit? "Item".data cs).map
    (fun r => dropSpaces (optChar ':' (optChar '#' (dropSpaces r))))) <|>
  ((ciStripLit? "MPN".data cs).map (fun r => dropSpaces (optChar ':' r)))

/-- Model of the `re.sub` of the anchored label prefix with the empty string: strip
one leading label when present. -/
def pnStripLabel (s : String) : String :=
  match pnPrefixMatch s.data with
  | some rest => String.mk rest
  | none => s

/-- Python `a or b` over optional attribute values (`None` and the
empty string are falsy). -/
def pyOrStr : Option String → Option String → Option String
  | some s, b => if s ≠ "" then some s else b
  | none, b => b

/-- The per-element part-number strategy (source lines 566-577): the
label-stripped element text when non-empty and shorter than 50
characters, else a truthy `data-part-number`/`data-sku`/`content`
attribute, stripped; otherwise the selector loop continues. -/
def pnFromElem (e : Elem) : Option String :=
  let text := pnStripLabel e.text
  if text ≠ "" && text.length < 50 then some (pyStrip text)
  else
    match pyOrStr (e.attr "data-part-number")
        (pyOrStr (e.attr "data-sku") (e.attr "content")) with
    | some v => if v ≠ "" then some (pyStrip v) else none
    | none => none

/-- The product-container selector (source line 580). -/
def pnContainerSel : String := "[data-part-number], [data-sku], [data-product-id]"

/-- Python `a or b or c or ""`: the first truthy value, else the empty
string. -/
def firstTruthy : List (Option String) → String
  | [] => ""
  | some s :: rest => if s ≠ "" then s else firstTruthy rest
  | none :: rest => firstTruthy rest

/-- The container data-attribute strategy (source lines 580-587): an
unconditional return of the attribute chain, whose default is the
empty string. -/
def pnFromContainer (e : Elem) : String :=
  firstTruthy [e.attr "data-part-number", e.attr "data-sku", e.attr "data-product-id"]

/-- Python `a or b or c or ""` over JSON values rendered into the
string-typed result. -/
def firstTruthyJson : List Json → String
  | [] => ""
  | j :: rest => if j.truthy then pyRender j else firstTruthyJson rest

/-- The JSON-LD part-number strategy (source lines 590-600): a parsed
dict with `@type == "Product"` returns `sku or mpn or productID or ""`
unconditionally; otherwise a dict carrying a `sku` key returns that
value (a JSON string in every intended document; other JSON values are
rendered through the abstraction `pyRender`). -/
def pnFromScripts : List (Option Json) → Option String
  | [] => none
  | script :: rest =>
    match script with
    | some j =>
      match j with
      | .obj _ =>
        if isStrEq ((j.get "@type").getD .null) "Product" then
          some (firstTruthyJson
            [(j.get "sku").getD .null, (j.get "mpn").getD .null,
             (j.get "productID").getD .null])
        else if j.hasKey "sku" then some (pyRender ((j.get "sku").getD .null))
        else pnFromScripts rest
      | _ => pnFromScripts rest
    | none => pnFromScripts rest

/-- The separator `[\s:]+` followed by the capture group `([A-Z0-9\-]+)`. -/
def matchSepPart (cs : List Char) : Option (List Char) :=
  let sep := cs.takeWhile (fun c => pyIsSpace c || c = ':')
  if sep.isEmpty then none
  else takeClass1 isPartChar (cs.drop sep.length)

/-- The alternation `(?:Number|#|No\.?)` followed by the separator and
the capture group, trying the alternatives in the pattern's order
(`No\.?` greedy: with the dot before without). -/
def matchLabelAlt (cs : List Char) : Option (List Char) :=
  ((ciStripLit? "Number".data cs).bind matchSepPart) <|>
  ((expectChar '#' cs).bind matchSepPart) <|>
  ((ciStripLit? "No.".data cs).bind matchSepPart) <|>
  ((ciStripLit? "No".data cs).bind matchSepPart)

/-- Position matcher of `Part\s*(?:Number|#|No\.?)[\s:]+([A-Z0-9\-]+)`
under `re.I`. -/
def matchG1At (cs : List Char) : Option (List Char) :=
  (ciStripLit? "Part".data cs).bind (fun r => matchLabelAlt (dropSpaces r))

/-- Position matcher of `SKU[\s:]+([A-Z0-9\-]+)` under `re.I`. -/
def matchG2At (cs : List Char) : Option (List Char) :=
  (ciStripLit? "SKU".data cs).bind matchSepPart

/-- Position matcher of `Item\s*(?:Number|#|No\.?)[\s:]+([A-Z0-9\-]+)`
under `re.I`. -/
def matchG3At (cs : List Char) : Option (List Char) :=
  (ciStripLit? "Item".data cs).bind (fun r => matchLabelAlt (dropSpaces r))

/-- Position matcher of `MPN[\s:]+([A-Z0-9\-]+)` under `re.I`. -/
def matchG4At (cs : List Char) : Option (List Char) :=
  (ciStripLit? "MPN".data cs).bind matchSepPart

/-- The generic free-text pattern cascade (source lines 603-613): each
pattern is searched over the whole text before the next is tried. -/
def searchGenericPN (t : List Char) : Option (List Char) :=
  (searchWith matchG1At t) <|> (searchWith matchG2At t) <|>
  (searchWith matchG3At t) <|> (searchWith matchG4At t)

/-- Model of `_extract_part_number`: the labeled free-text pattern, the selector
cascade, the container data attributes, the structured metadata, the
generic free-text patterns, then the sentinel. -/
def extract_part_number (d : Document) : String :=
  match searchWith matchPartHashAt d.text with
  | some g => pyStrip (String.mk g)
  | none =>
    match firstSome (fun sel => (d.selectOne sel).bind pnFromElem) pnSelectors with
    | some r => r
    | none =>
      match d.selectOne pnContainerSel with
      | some e => pnFromContainer e
      | none =>
        match pnFromScripts d.ldScripts with
        | some r => r
        | none =>
          match searchGenericPN d.text with
          | some g => pyStrip (String.mk g)
          | none => "UNKNOWN"

/-- A document with no text, no elements and no metadata. -/
def emptyDoc : Document := ⟨[], fun _ => [], []⟩

/-- A document whose only part-number source is a JSON-LD product
block that carries no `sku`, `mpn` or `productID` field. -/
def docC2 : Document := ⟨[], fun _ => [], [some (.obj [("@type", .str "Product")])]⟩

/-- A float formatter that always raises: usable wherever the
formatter is irrelevant to the outcome. -/
def ffNone : String → Option String := fun _ => none

/-- A document whose text carries a price before the price
`"$1,234.56"` of interest. -/
def docC6 : Document := ⟨"$9.99 $1,234.56".data, fun _ => [], []⟩

/-! ### `_extract_name` (source lines 933-960) -/

/-- The name selectors tried in order. -/
def nameSelectors : List String :=
  ["h1.product-name", "h1.product-title", "h1[itemprop=\"name\"]",
   "[itemprop=\"name\"]", ".product-name", ".product-title", "h1"]

/-- The JSON-LD name strategy: the first parsed product dict with a
truthy `name` wins. -/
def nameFromScripts : List (Option Json) → Option String
  | [] => none
  | script :: rest =>
    match script with
    | some j =>
      match j with
      | .obj _ =>
        if isStrEq ((j.get "@type").getD .null) "Product" then
          let name := (j.get "name").getD .null
          if name.truthy then some (pyRender name) else nameFromScripts rest
        else nameFromScripts rest
      | _ => nameFromScripts rest
    | none => nameFromScripts rest

/-- Model of `_extract_name`: heading selectors (text longer than 2), then the
structured metadata, then the sentinel. -/
def extract_name (d : Document) : String :=
  match firstSome (fun sel => (d.selectOne sel).bind (fun e =>
      if e.text ≠ "" && e.text.length > 2 then some e.text else none)) nameSelectors with
  | some t => t
  | none =>
    match nameFromScripts d.ldScripts with
    | some n => n
    | none => "Unknown Product"

/-! ### `_extract_sku` (source lines 617-649) -/

/-- Position matcher of `MPN\s*#?:\s*([A-Z0-9\-]+)` under `re.I`. -/
def matchMpnAt (cs : List Char) : Option (List Char) :=
  match ciStripLit? "MPN".data cs with
  | none => none
  | some r1 =>
    match expectChar ':' (optChar '#' (dropSpaces r1)) with
    | none => none
    | some r2 => takeClass1 isPartChar (dropSpaces r2)

/-- The SKU selectors tried in order. -/
def skuSelectors : List String :=
  [".sku:not(.part-number)", "[data-sku]", "[itemprop=\"sku\"]", ".manufacturer-sku"]

/-- Python `a or b` over strings (the empty string is falsy). -/
def pyOrS (a b : String) : String := if a ≠ "" then a else b

/-- Model of `re.sub(r"^SKU:?\s*", "", text, flags=re.I)`. -/
def skuStripLabel (s : String) : String :=
  match (ciStripLit? "SKU".data s.data).map (fun r => dropSpaces (optChar ':' r)) with
  | some rest => String.mk rest
  | none => s

/-- The per-element SKU strategy: element text or `data-sku` or
`content` (defaults empty), label-stripped, accepted when non-empty
and shorter than 50. -/
def skuFromElem (e : Elem) : Option String :=
  let t := skuStripLabel (pyOrS e.text
    (pyOrS ((e.attr "data-sku").getD "") ((e.attr "content").getD "")))
  if t ≠ "" && t.length < 50 then some (pyStrip t) else none

/-- The JSON-LD SKU strategy: the first parsed product dict returns
its `sku` unconditionally — possibly the absent value. -/
def skuFromScripts : List (Option Json) → Option (Option String)
  | [] => none
  | script :: rest =>
    match script with
    | some j =>
      match j with
      | .obj _ =>
        if isStrEq ((j.get "@type").getD .null) "Product" then
          some (match j.get "sku" with
                | some v => jsonToOptStr v
                | none => none)
        else skuFromScripts rest
      | _ => skuFromScripts rest
    | none => skuFromScripts rest

/-- Model of `_extract_sku`: the MPN free-text pattern, the selector cascade,
then the structured metadata. -/
def extract_sku (d : Document) : Option String :=
  match searchWith matchMpnAt d.text with
  | some g => some (pyStrip (String.mk g))
  | none =>
    match firstSome (fun sel => (d.selectOne sel).bind skuFromElem) skuSelectors with
    | some r => some r
    | none =>
      match skuFromScripts d.ldScripts with
      | some v => v
      | none => none

/-! ### `_extract_brand` (source lines 651-690) -/

/-- The class `[A-Za-z0-9\s]` of the brand capture group. -/
def brandClass (c : Char) : Bool :=
  ('A' ≤ c && c ≤ 'Z') || ('a' ≤ c && c ≤ 'z') || isDigitChar c || pyIsSpace c

/-- The delimiter `(?:\||$|\n)` after the lazy brand group (`$`
without `re.M` matches at the end or before a final newline, which the
newline alternative already covers). -/
def brandDelimOk : List Char → Bool
  | [] => true
  | '|' :: _ => true
  | '\n' :: _ => true
  | _ => false

/-- The lazy group `([A-Za-z0-9\s]+?)`: the shortest non-empty class
run after which the delimiter matches. -/
def brandLazy : List Char → List Char → Option (List Char)
  | _, [] => none
  | acc, c :: rest =>
    if brandClass c then
      if brandDelimOk rest then some (acc ++ [c]) else brandLazy (acc ++ [c]) rest
    else none

/-- The greedy `\s*` before the lazy group: try consuming `j` spaces,
largest first, backtracking down to none. -/
def brandTrySpaces (r : List Char) : Nat → Option (List Char)
  | 0 => brandLazy [] r
  | j + 1 =>
    match brandLazy [] (r.drop (j + 1)) with
    | some g => some g
    | none => brandTrySpaces r j

/-- Position matcher of `Brand:\s*([A-Za-z0-9\s]+?)(?:\||$|\n)`
(case-sensitive — this pattern carries no `re.I`). -/
def matchBrandAt (cs : List Char) : Option (List Char) :=
  match stripLit? "Brand:".data cs with
  | none => none
  | some r => brandTrySpaces r (r.takeWhile pyIsSpace).length

/-- The brand selectors tried in order. -/
def brandSelectors : List String :=
  [".brand", ".manufacturer", "[itemprop=\"brand\"]",
   ".product-brand", "[data-brand]", ".brand-name",
   ".vendor", ".product-vendor"]

/-- The per-element brand strategy: a nested `[itemprop="name"]`
sub-element is returned unconditionally, else the element's non-empty
text. -/
def brandFromElem (e : Elem) : Option String :=
  match e.selectOne "[itemprop=\"name\"]" with
  | some nameElem => some nameElem.text
  | none => if e.text ≠ "" then some e.text else none

/-- The JSON-LD brand strategy: the first parsed product dict returns
its `brand` unconditionally, unwrapping a nested brand object. -/
def brandFromScripts : List (Option Json) → Option (Option String)
  | [] => none
  | script :: rest =>
    match script with
    | some j =>
      match j with
      | .obj _ =>
        if isStrEq ((j.get "@type").getD .null) "Product" then
          some (match (j.get "brand").getD .null with
                | .obj bf =>
                  match lookupField "name" bf with
                  | some v => jsonToOptStr v
                  | none => none
                | b => jsonToOptStr b)
        else brandFromScripts rest
      | _ => brandFromScripts rest
    | none => brandFromScripts rest

/-- Model of `_extract_brand`: the labeled free-text pattern, the selector
cascade, then the structured metadata. -/
def extract_brand (d : Document) : Option String :=
  match searchWith matchBrandAt d.text with
  | some g => some (pyStrip (String.mk g))
  | none =>
    match firstSome (fun sel => (d.selectOne sel).bind brandFromElem) brandSelectors with
    | some r => some r
    | none =>
      match brandFromScripts d.ldScripts with
      | some v => v
      | none => none

/-! ### `_extract_description` (source lines 750-778) -/

/-- The description selectors tried in order. -/
def descSelectors : List String :=
  [".product-description", "[itemprop=\"description\"]",
   ".description", "#product-description",
   ".product-details", ".product-info",
   ".product-summary", ".product-content"]

/-- The JSON-LD description strategy: the first parsed product dict
with a truthy string `description` wins, truncated to 2000 characters
(the intended type; a truthy non-string would be sliced in Python). -/
def descFromScripts : List (Option Json) → Option String
  | [] => none
  | script :: rest =>
    match script with
    | some j =>
      match j with
      | .obj _ =>
        if isStrEq ((j.get "@type").getD .null) "Product" then
          match (j.get "description").getD .null with
          | .str s => if s ≠ "" then some (s.take 2000) else descFromScripts rest
          | _ => descFromScripts rest
        else descFromScripts rest
      | _ => descFromScripts rest
    | none => descFromScripts rest

/-- Model of `_extract_description`: selector texts longer than 10, truncated
to 2000 characters, then the structured metadata. -/
def extract_description (d : Document) : Option String :=
  match firstSome (fun sel => (d.selectOne sel).bind (fun e =>
      if e.text ≠ "" && e.text.length > 10 then some (e.text.take 2000) else none))
      descSelectors with
  | some t => some t
  | none => descFromScripts d.ldScripts

/-! ### `_extract_specifications` (source lines 780-836) -/

/-- A Python dict insertion over the insertion-ordered mapping model:
an existing key keeps its position and takes the new value, a new key
is appended. -/
def dictInsert (m : List (String × String)) (k v : String) : List (String × String) :=
  if m.any (fun kv => kv.1 = k) then
    m.map (fun kv => if kv.1 = k then (k, v) else kv)
  else m ++ [(k, v)]

/-- The site-specific `.specItem` label/value phase. -/
def specItemsPhase (d : Document) : List (String × String) :=
  (d.sel ".specItem").foldl (fun specs item =>
    match item.selectOne ".specLabel", item.selectOne ".specValue" with
    | some le, some ve =>
      let label := pyRstripColon le.text
      let value := ve.text
      if label ≠ "" && value ≠ "" then dictInsert specs label value else specs
    | _, _ => specs) []

/-- The specification-table selector (one comma-joined string in the
source). -/
def specTableSelector : String :=
  ".specifications table, .product-specs table, .spec-table, .product-attributes table, .tech-specs table, #specifications table, .specsWrapper table"

/-- The generic table phase: row cells 0 and 1 as key and value. -/
def specTablesPhase (d : Document) (specs0 : List (String × String)) :
    List (String × String) :=
  (d.sel specTableSelector).foldl (fun specs table =>
    (table.sub "tr").foldl (fun specs row =>
      match row.sub "td, th" with
      | c0 :: c1 :: _ =>
        let key := pyRstripColon c0.text
        let value := c1.text
        if key ≠ "" && value ≠ "" then dictInsert specs key value else specs
      | _ => specs) specs) specs0

/-- The definition-list phase: `dt`/`dd` zipped pairwise. -/
def specDlPhase (d : Document) (specs0 : List (String × String)) :
    List (String × String) :=
  (d.sel ".specifications dl, .product-specs dl, .attributes dl").foldl (fun specs dl =>
    ((dl.sub "dt").zip (dl.sub "dd")).foldl (fun specs p =>
      let key := pyRstripColon p.1.text
      let value := p.2.text
      if key ≠ "" && value ≠ "" then dictInsert specs key value else specs) specs) specs0

/-- The generic key/value block phase: label and value sub-elements,
inserted without a text-emptiness check. -/
def specGenericPhase (d : Document) (specs0 : List (String × String)) :
    List (String × String) :=
  (d.sel ".spec-item, .attribute, .product-attribute, .spec-row, .attribute-row").foldl
    (fun specs item =>
      match item.selectOne ".label, .name, .key, .spec-name, .attr-name",
            item.selectOne ".value, .spec-value, .attr-value" with
      | some le, some ve => dictInsert specs (pyRstripColon le.text) ve.text
      | _, _ => specs) specs0

/-- Model of `_extract_specifications`: the site-specific phase; if it found
nothing, the three generic phases merged into one mapping. -/
def extract_specifications (d : Document) : List (String × String) :=
  let specs := specItemsPhase d
  if specs.isEmpty then specGenericPhase d (specDlPhase d (specTablesPhase d []))
  else specs

/-! ### `_extract_image` (source lines 896-931) -/

def BASE_URL : String := "https://www.fleetpride.com"

/-- Abstraction of `urllib.parse.urljoin`: an absolute URL is kept,
anything else is resolved against the base (the RFC 3986 resolution
steps are outside the model). -/
def urljoin (base rel : String) : String :=
  if rel.startsWith "http://" || rel.startsWith "https://" then rel else base ++ rel

/-- The image selectors tried in order. -/
def imageSelectors : List String :=
  [".product-image img", "#product-image img",
   "[itemprop=\"image\"]", ".main-image img",
   ".gallery-main img", "img.product-img",
   ".product-gallery img", ".product-photo img"]

/-- The per-element image strategy: explicit `src` before the
lazy-load data attributes, rejecting inline data URIs, resolved
against the base URL. -/
def imageFromElem (e : Elem) : Option String :=
  match pyOrStr (e.attr "src")
      (pyOrStr (e.attr "data-src")
        (pyOrStr (e.attr "data-lazy-src") (e.attr "data-zoom-image"))) with
  | some s =>
    if s ≠ "" && !(s.startsWith "data:") then some (urljoin BASE_URL s) else none
  | none => none

/-- The JSON-LD image strategy: the first element of an image list, or
a scalar image string. -/
def imageFromScripts : List (Option Json) → Option String
  | [] => none
  | script :: rest =>
    match script with
    | some j =>
      match j with
      | .obj _ =>
        if isStrEq ((j.get "@type").getD .null) "Product" then
          match (j.get "image").getD .null with
          | .arr (first :: _) => some (pyRender first)
          | .str s => some s
          | _ => imageFromScripts rest
        else imageFromScripts rest
      | _ => imageFromScripts rest
    | none => imageFromScripts rest

/-- Model of `_extract_image`: the selector cascade, then the structured
metadata. -/
def extract_image (d : Document) : Option String :=
  match firstSome (fun sel => (d.selectOne sel).bind imageFromElem) imageSelectors with
  | some s => some s
  | none => imageFromScripts d.ldScripts

/-! ### Pagination loops of `scrape_category` (source lines 1431-1585)

The references re-extracted from the live browser document after a
click are environment data, as is each click's outcome; both are
indexed by the loop's own counter.  References are identified by their
URL, the key the merging deduplicates on. -/

structure MergeResult where
  infos : List String
  existing : List String
  newCount : Nat

/-- Merging re-extracted references:
`for p in new_products: if p["url"] not in existing_urls: append`,
counting the newly appended ones. -/
def mergeNew : List String → List String → List String → MergeResult
  | [], infos, existing => ⟨infos, existing, 0⟩
  | p :: rest, infos, existing =>
    if existing.contains p then mergeNew rest infos existing
    else
      let r := mergeNew rest (infos ++ [p]) (p :: existing)
      ⟨r.infos, r.existing, r.newCount + 1⟩

/-- The environment of one category's pagination: the outcome of each
`handle_load_more` invocation, of each next-page and targeted-page
click, and the reference URLs extracted from the updated document
after each click. -/
structure CatEnv where
  loadMore : Nat → Bool
  loadMorePage : Nat → List String
  clickNext : Nat → Bool
  clickPage : Nat → Bool
  buttonPage : Nat → List String

/-- The Python truthiness guard of the per-category cap:
`if self.max_products_per_category and len(product_infos) >= self.max_products_per_category`
(an unset cap is `None`; a cap of `0` is falsy and disables the
check). -/
def capReached (cap : Option Nat) (infos : List String) : Bool :=
  match cap with
  | none => false
  | some n => decide (n ≠ 0) && decide (n ≤ infos.length)

structure LoadMoreResult where
  count : Nat
  attempts : Nat
  infos : List String
  existing : List String

/-- The load-more loop (source lines 1475-1496):
`while self.handle_load_more() and load_more_count < 50:` — the click
attempt is the first conjunct of the condition, so it is performed
before the count guard is checked.  `attempts` counts the
`handle_load_more` invocations.  The fuel is `50 - count`, so the
fuel-exhaustion arm is unreachable from the entry point. -/
def loadMoreLoopF (env : CatEnv) (cap : Option Nat) :
    Nat → Nat → Nat → List String → List String → LoadMoreResult
  | fuel, count, attempts, infos, existing =>
    if env.loadMore attempts && decide (count < 50) then
      let m := mergeNew (env.loadMorePage attempts) infos existing
      if capReached cap m.infos then ⟨count + 1, attempts + 1, m.infos, m.existing⟩
      else if m.newCount = 0 then ⟨count + 1, attempts + 1, m.infos, m.existing⟩
      else
        match fuel with
        | 0 => ⟨count + 1, attempts + 1, m.infos, m.existing⟩
        | fuel' + 1 =>
          loadMoreLoopF env cap fuel' (count + 1) (attempts + 1) m.infos m.existing
    else ⟨count, attempts + 1, infos, existing⟩

/-- The load-more loop from its entry state. -/
def loadMoreLoop (env : CatEnv) (cap : Option Nat)
    (infos existing : List String) : LoadMoreResult :=
  loadMoreLoopF env cap 50 0 0 infos existing

structure ButtonResult where
  page : Nat
  consecutiveEmpty : Nat
  iterations : Nat
  failed : Bool
  infos : List String
  existing : List String

/-- The button-pagination loop (source lines 1499-1542):
`while current_page < max_pages and consecutive_empty < 3 and not
next_page_failed:` with `max_pages = 100`; the body checks the cap,
clicks next page (falling back to the targeted page button), merges on
success and tracks consecutive empty pages; a click failure ends the
loop.  The fuel is `100 - page`, so the fuel-exhaustion arm is
unreachable from the entry point. -/
def buttonLoopF (env : CatEnv) (cap : Option Nat) :
    Nat → Nat → Nat → Nat → List String → List String → ButtonResult
  | fuel, page, empty, iters, infos, existing =>
    if decide (page < 100) && decide (empty < 3) then
      if capReached cap infos then ⟨page, empty, iters, false, infos, existing⟩
      else
        let clicked := if env.clickNext iters then true else env.clickPage iters
        if clicked then
          let m := mergeNew (env.buttonPage iters) infos existing
          let e := if m.newCount = 0 then empty + 1 else 0
          match fuel with
          | 0 => ⟨page + 1, e, iters + 1, false, m.infos, m.existing⟩
          | fuel' + 1 =>
            buttonLoopF env cap fuel' (page + 1) e (iters + 1) m.infos m.existing
        else ⟨page, empty, iters + 1, true, infos, existing⟩
    else ⟨page, empty, iters, false, infos, existing⟩

/-- The button-pagination loop from its entry state (`current_page`
starts at 1). -/
def buttonLoop (env : CatEnv) (cap : Option Nat)
    (infos existing : List String) : ButtonResult :=
  buttonLoopF env cap 99 1 0 0 infos existing

structure CatLoops where
  loadMore : LoadMoreResult
  buttonEntered : Bool
  button : Option ButtonResult

/-- The sequencing of the two AJAX pagination mechanisms inside
`scrape_category`: the button loop runs only when the load-more loop
made zero successful clicks (`if not load_more_count:`, source line
1499). -/
def categoryPagination (env : CatEnv) (cap : Option Nat)
    (infos existing : List String) : CatLoops :=
  let lm := loadMoreLoop env cap infos existing
  if lm.count = 0 then
    ⟨lm, true, some (buttonLoop env cap lm.infos lm.existing)⟩
  else ⟨lm, false, none⟩

/-- The final truncation of `scrape_category` (source lines 1572-1574):
`if self.max_products_per_category and len(product_infos) >
self.max_products_per_category: product_infos =
product_infos[:self.max_products_per_category]`.  The per-product loop
then attempts exactly the entries of the list this returns. -/
def applyCap (cap : Option Nat) (infos : List String) : List String :=
  match cap with
  | none => infos
  | some n => if n ≠ 0 ∧ infos.length > n then infos.take n else infos

/-- Pairwise-distinct reference URLs. -/
def urlN (i : Nat) : String := String.mk (List.replicate i 'a')

/-- A load-more environment where every click succeeds and every
re-extraction yields one fresh reference. -/
def envC3 : CatEnv :=
  ⟨fun _ => true, fun i => [urlN i], fun _ => false, fun _ => false, fun _ => []⟩

/-- The reference list collected after the first `k` load-more
merges of `envC3`. -/
def infosUpTo (k : Nat) : List String := (List.range k).map urlN

/-- The seen-URL set after the first `k` load-more merges of
`envC3`. -/
def existingUpTo (k : Nat) : List String := (List.range k).reverse.map urlN

/-- An environment whose first load-more click succeeds and loads
nothing new. -/
def envC4 : CatEnv :=
  ⟨fun _ => true, fun _ => [], fun _ => false, fun _ => false, fun _ => []⟩

/-- An environment where every next-page click succeeds and every
re-extraction is empty. -/
def envC5 : CatEnv :=
  ⟨fun _ => false, fun _ => [], fun _ => true, fun _ => false, fun _ => []⟩

/-! ### The fetch guard and the run (`_fetch_page`,
`_fetch_page_with_scroll`, `scrape_product_page`, `run`) -/

/-- A fully resolved catalog entry (the `Product` dataclass, source
lines 43-58; the specification mapping is insertion-ordered like a
Python dict). -/
structure Product where
  name : String
  part_number : String
  sku : Option String
  brand : Option String
  category : String
  subcategory : Option String
  price : Option String
  description : Option String
  features : List String
  specifications : List (String × String)
  url : String
  image_url : Option String
  scraped_at : String

/-- One entry of `self.errors`. -/
structure ErrorRecord where
  url : String
  error : String
deriving DecidableEq

/-- The mutable crawl state owned by the scraper: the visited-URL set,
the error list, and a ghost log of the URLs actually handed to the
driver (each `get_page` call). -/
structure RunState where
  visited : List String
  errors : List ErrorRecord
  fetchLog : List String

/-- Model of `_fetch_page` (source lines 321-344): an already-visited URL is
skipped before any driver work; otherwise the URL is marked visited
first, the driver fetches it (recorded in the ghost log), and a failed
load appends an `ErrorRecord`.  The environment maps a URL to the
parsed document, or `none` for a load failure. -/
def fetchPage (env : String → Option Document) (st : RunState) (url : String) :
    Option Document × RunState :=
  if st.visited.contains url then (none, st)
  else
    match env url with
    | none =>
      (none, ⟨url :: st.visited,
              st.errors ++ [⟨url, "Failed to load page"⟩],
              url :: st.fetchLog⟩)
    | some doc => (some doc, ⟨url :: st.visited, st.errors, url :: st.fetchLog⟩)

/-- Model of `_fetch_page_with_scroll` (source lines 346-383): the same
visited-set discipline; after a successful load the page is scrolled
and re-read, which the environment folds into the returned document. -/
def fetchPageWithScroll (env : String → Option Document) (st : RunState) (url : String) :
    Option Document × RunState :=
  if st.visited.contains url then (none, st)
  else
    match env url with
    | none =>
      (none, ⟨url :: st.visited,
              st.errors ++ [⟨url, "Failed to load page"⟩],
              url :: st.fetchLog⟩)
    | some doc => (some doc, ⟨url :: st.visited, st.errors, url :: st.fetchLog⟩)

/-- A run's fetch trace: every page the crawl loads goes through one
of the two guarded fetch functions (`get_page` has no other caller),
in some order with some URLs — both arbitrary here. -/
def processFetches (envP envS : String → Option Document) :
    List (Bool × String) → RunState → RunState
  | [], st => st
  | (withScroll, url) :: rest, st =>
    processFetches envP envS rest
      (if withScroll then (fetchPageWithScroll envS st url).2
       else (fetchPage envP st url).2)

/-- Model of `scrape_product_page` (source lines 962-1003): fetch through the
visited-set guard, then build the `Product` from the field extractors
(total functions here, so the per-product exception handler has
nothing to catch). -/
def scrape_product_page (ff : String → Option String) (now : String)
    (env : String → Option Document) (st : RunState)
    (url category : String) (subcategory : Option String) :
    Option Product × RunState :=
  match fetchPage env st url with
  | (none, st') => (none, st')
  | (some soup, st') =>
    (some
      { name := extract_name soup
        part_number := extract_part_number soup
        sku := extract_sku soup
        brand := extract_brand soup
        category := category
        subcategory := subcategory
        price := extract_price ff soup
        description := extract_description soup
        features := extract_features soup
        specifications := extract_specifications soup
        url := url
        image_url := extract_image soup
        scraped_at := now }, st')

/-- The per-reference product phase of a run: the references collected
for all categories (each with its category name), processed in order
by `scrape_product_page`; a `None` result is skipped, a product is
appended to the run's accumulating list (source lines 1579-1584 and
1610-1613). -/
def processRefs (ff : String → Option String) (now : String)
    (env : String → Option Document) :
    List (String × String) → RunState → List Product → RunState × List Product
  | [], st, acc => (st, acc)
  | (url, category) :: rest, st, acc =>
    match scrape_product_page ff now env st url category none with
    | (some p, st') => processRefs ff now env rest st' (acc ++ [p])
    | (none, st') => processRefs ff now env rest st' acc

/-- The fetch-discipline invariant: the driver never saw a URL twice,
and everything it saw is marked visited. -/
def FetchInv (st : RunState) : Prop :=
  st.fetchLog.Nodup ∧ ∀ u ∈ st.fetchLog, u ∈ st.visited

/-! ## Theorems -/

/-- Marking a fresh URL preserves the fetch discipline. -/
theorem fetchInv_extend (st : RunState) (url : String) (errs : List ErrorRecord)
    (h : FetchInv st) (hvn : url ∉ st.visited) :
    FetchInv ⟨url :: st.visited, errs, url :: st.fetchLog⟩ := by
  obtain ⟨h1, h2⟩ := h
  have hfn : url ∉ st.fetchLog := fun hf => hvn (h2 _ hf)
  refine ⟨List.nodup_cons.mpr ⟨hfn, h1⟩, ?_⟩
  intro u hu
  rcases List.mem_cons.mp hu with he | hm
  · exact he ▸ List.mem_cons_self _ _
  · exact List.mem_cons_of_mem _ (h2 _ hm)

/-- The function `_fetch_page` preserves the fetch discipline. -/
theorem fetchPage_inv (env : String → Option Document) (st : RunState) (url : String)
    (h : FetchInv st) : FetchInv (fetchPage env st url).2 := by
  rw [fetchPage]
  split
  · exact h
  · rename_i hnv
    have hvn : url ∉ st.visited := by simpa using hnv
    split
    · exact fetchInv_extend st url _ h hvn
    · exact fetchInv_extend st url _ h hvn

/-- The function `_fetch_page_with_scroll` preserves the fetch discipline. -/
theorem fetchPageWithScroll_inv (env : String → Option Document) (st : RunState)
    (url : String) (h : FetchInv st) : FetchInv (fetchPageWithScroll env st url).2 := by
  rw [fetchPageWithScroll]
  split
  · exact h
  · rename_i hnv
    have hvn : url ∉ st.visited := by simpa using hnv
    split
    · exact fetchInv_extend st url _ h hvn
    · exact fetchInv_extend st url _ h hvn

/-- Any sequence of guarded fetches preserves the fetch discipline. -/
theorem processFetches_inv (envP envS : String → Option Document)
    (reqs : List (Bool × String)) : ∀ st : RunState, FetchInv st →
    FetchInv (processFetches envP envS reqs st) := by
  induction reqs with
  | nil => intro st h; exact h
  | cons r rest ih =>
    intro st h
    obtain ⟨ws, url⟩ := r
    rw [processFetches]
    apply ih
    cases ws with
    | false => exact fetchPage_inv envP st url h
    | true => exact fetchPageWithScroll_inv envS st url h

/-- C7 (confirmed): within one run no URL is fetched twice — for any
sequence of page requests through the two guarded fetch functions
(the only callers of the driver), the driver sees each URL at most
once, because the visited set reports-and-marks the URL before any
fetch is attempted. -/
theorem claim7_no_url_fetched_twice (envP envS : String → Option Document)
    (reqs : List (Bool × String)) (u : String) :
    (processFetches envP envS reqs ⟨[], [], []⟩).fetchLog.count u ≤ 1 := by
  have hinv := processFetches_inv envP envS reqs ⟨[], [], []⟩
    ⟨List.nodup_nil, by simp⟩
  exact List.nodup_iff_count_le_one.mp hinv.1 u

/-- A URL already visited stays visited across a fetch, and the fetch
log's occurrences of it do not grow. -/
theorem fetchPage_count_preserved (env : String → Option Document) (st : RunState)
    (url u : String) (hu : u ∈ st.visited) :
    u ∈ (fetchPage env st url).2.visited ∧
    (fetchPage env st url).2.fetchLog.count u = st.fetchLog.count u := by
  rw [fetchPage]
  split
  · exact ⟨hu, rfl⟩
  · rename_i hnv
    have hne : u ≠ url := fun he => (by simpa using hnv : url ∉ st.visited) (he ▸ hu)
    split
    · exact ⟨List.mem_cons_of_mem _ hu, List.count_cons_of_ne hne _⟩
    · exact ⟨List.mem_cons_of_mem _ hu, List.count_cons_of_ne hne _⟩

/-- The scrolling variant preserves the same facts. -/
theorem fetchPageWithScroll_count_preserved (env : String → Option Document)
    (st : RunState) (url u : String) (hu : u ∈ st.visited) :
    u ∈ (fetchPageWithScroll env st url).2.visited ∧
    (fetchPageWithScroll env st url).2.fetchLog.count u = st.fetchLog.count u := by
  rw [fetchPageWithScroll]
  split
  · exact ⟨hu, rfl⟩
  · rename_i hnv
    have hne : u ≠ url := fun he => (by simpa using hnv : url ∉ st.visited) (he ▸ hu)
    split
    · exact ⟨List.mem_cons_of_mem _ hu, List.count_cons_of_ne hne _⟩
    · exact ⟨List.mem_cons_of_mem _ hu, List.count_cons_of_ne hne _⟩

/-- A visited URL is never handed to the driver by any later fetch. -/
theorem processFetches_count_preserved (envP envS : String → Option Document)
    (reqs : List (Bool × String)) : ∀ st : RunState, ∀ u ∈ st.visited,
    (processFetches envP envS reqs st).fetchLog.count u = st.fetchLog.count u := by
  induction reqs with
  | nil => intro st u _; rfl
  | cons r rest ih =>
    intro st u hu
    obtain ⟨ws, url⟩ := r
    rw [processFetches]
    cases ws with
    | false =>
      obtain ⟨h1, h2⟩ := fetchPage_count_preserved envP st url u hu
      show (processFetches envP envS rest (fetchPage envP st url).2).fetchLog.count u
        = st.fetchLog.count u
      rw [ih _ u h1]
      exact h2
    | true =>
      obtain ⟨h1, h2⟩ := fetchPageWithScroll_count_preserved envS st url u hu
      show (processFetches envP envS rest (fetchPageWithScroll envS st url).2).fetchLog.count u
        = st.fetchLog.count u
      rw [ih _ u h1]
      exact h2

/-- C10 (confirmed): a failed fetch of a fresh URL returns no
document, appends an `ErrorRecord` for that URL, leaves the URL
marked visited, and no later fetch operation of the run hands that
URL to the driver again — the failure is permanent for the run. -/
theorem claim10_failed_fetch_permanent (env envS : String → Option Document)
    (st : RunState) (u : String) (reqs : List (Bool × String))
    (hnv : u ∉ st.visited) (hfail : env u = none) :
    (fetchPage env st u).1 = none ∧
    (⟨u, "Failed to load page"⟩ : ErrorRecord) ∈ (fetchPage env st u).2.errors ∧
    u ∈ (fetchPage env st u).2.visited ∧
    (processFetches env envS reqs (fetchPage env st u).2).fetchLog.count u
      = (fetchPage env st u).2.fetchLog.count u := by
  have hc : st.visited.contains u = false := by simpa using hnv
  have hfp : fetchPage env st u
      = (none, ⟨u :: st.visited, st.errors ++ [⟨u, "Failed to load page"⟩],
                u :: st.fetchLog⟩) := by
    rw [fetchPage, hc, hfail]
    rfl
  rw [hfp]
  refine ⟨rfl, by simp, List.mem_cons_self _ _, ?_⟩
  exact processFetches_count_preserved env envS reqs _ u (List.mem_cons_self _ _)

/-- C10 (witness): the failure facts evaluated on an always-failing
fetcher, a fresh URL, and a later request list that retries the same
URL. -/
theorem claim10_failed_fetch_permanent_witness :
    ("x" ∉ (⟨[], [], []⟩ : RunState).visited) ∧
    ((fun _ => (none : Option Document)) "x" = none) ∧
    ((fetchPage (fun _ => none) ⟨[], [], []⟩ "x").1 = none ∧
     (⟨"x", "Failed to load page"⟩ : ErrorRecord)
        ∈ (fetchPage (fun _ => none) ⟨[], [], []⟩ "x").2.errors ∧
     "x" ∈ (fetchPage (fun _ => none) ⟨[], [], []⟩ "x").2.visited ∧
     (processFetches (fun _ => none) (fun _ => none) [(false, "x"), (true, "x")]
        (fetchPage (fun _ => none) ⟨[], [], []⟩ "x").2).fetchLog.count "x"
       = (fetchPage (fun _ => none) ⟨[], [], []⟩ "x").2.fetchLog.count "x") :=
  ⟨by simp, rfl,
   claim10_failed_fetch_permanent (fun _ => none) (fun _ => none) ⟨[], [], []⟩ "x"
     [(false, "x"), (true, "x")] (by simp) rfl⟩

/-- A successful product fetch concerns a fresh URL and marks it. -/
theorem fetchPage_some_not_visited (env : String → Option Document) (st : RunState)
    (url : String) (h : (fetchPage env st url).1 ≠ none) :
    url ∉ st.visited ∧ (fetchPage env st url).2.visited = url :: st.visited := by
  revert h
  rw [fetchPage]
  split
  · intro h; exact absurd rfl h
  · rename_i hnv
    intro _
    refine ⟨by simpa using hnv, ?_⟩
    split
    · rfl
    · rfl

/-- What `scrape_product_page` does to the state and the product: the
state is the fetch's state, and a produced product carries the fetched
URL, which was fresh and is marked visited afterwards. -/
theorem scrape_product_page_spec (ff : String → Option String) (now : String)
    (env : String → Option Document) (st : RunState) (url category : String)
    (sub : Option String) :
    (scrape_product_page ff now env st url category sub).2 = (fetchPage env st url).2 ∧
    ((scrape_product_page ff now env st url category sub).1 = none ∨
     (∃ p, (scrape_product_page ff now env st url category sub).1 = some p ∧
        p.url = url ∧ url ∉ st.visited ∧ url ∈ (fetchPage env st url).2.visited)) := by
  rcases hfp : fetchPage env st url with ⟨doc?, st'⟩
  cases doc? with
  | none =>
    rw [scrape_product_page, hfp]
    exact ⟨rfl, Or.inl rfl⟩
  | some soup =>
    rw [scrape_product_page, hfp]
    have hne : (fetchPage env st url).1 ≠ none := by rw [hfp]; simp
    obtain ⟨hnv, hva⟩ := fetchPage_some_not_visited env st url hne
    rw [hfp] at hva
    refine ⟨rfl, Or.inr ⟨_, rfl, rfl, hnv, ?_⟩⟩
    rw [hva]
    exact List.mem_cons_self _ _

/-- The product phase keeps the product URLs pairwise distinct. -/
theorem processRefs_nodup (ff : String → Option String) (now : String)
    (env : String → Option Document) (refs : List (String × String)) :
    ∀ (st : RunState) (acc : List Product),
    (acc.map Product.url).Nodup → (∀ p ∈ acc, p.url ∈ st.visited) →
    (((processRefs ff now env refs st acc).2).map Product.url).Nodup := by
  induction refs with
  | nil => intro st acc h1 _; exact h1
  | cons r rest ih =>
    intro st acc h1 h2
    obtain ⟨url, category⟩ := r
    obtain ⟨hst, hp⟩ := scrape_product_page_spec ff now env st url category none
    rw [processRefs]
    rcases hsp : scrape_product_page ff now env st url category none with ⟨p?, st'⟩
    rw [hsp] at hst hp
    have hst2 : st' = (fetchPage env st url).2 := hst
    cases p? with
    | none =>
      apply ih st' acc h1
      intro p hpmem
      rw [hst2]
      exact (fetchPage_count_preserved env st url p.url (h2 p hpmem)).1
    | some p =>
      rcases hp with hnone | ⟨q, hq, hqu, hnv, hmem⟩
      · exact absurd hnone (by simp)
      · have hpq : p = q := by simpa using hq
        subst hpq
        apply ih st' (acc ++ [p])
        · rw [List.map_append]
          refine List.Nodup.append h1 (List.nodup_singleton _) ?_
          intro x hx hx2
          have hxp : x = p.url := by simpa using hx2
          subst hxp
          obtain ⟨pq, hpqm, hpqu⟩ := List.mem_map.mp hx
          exact hnv (hqu ▸ hpqu ▸ h2 pq hpqm)
        · intro q2 hq2
          rcases List.mem_append.mp hq2 with hl | hr
          · rw [hst2]
            exact (fetchPage_count_preserved env st url q2.url (h2 q2 hl)).1
          · have hq2p : q2 = p := by simpa using hr
            subst hq2p
            rw [hst2, hqu]
            exact hmem

/-- C8 (confirmed): within one run no two products share a URL, even
when the same reference is discovered under two different categories:
the visited-set guard inside `_fetch_page` makes the second
`scrape_product_page` of a URL return `None` instead of a second
product. -/
theorem claim8_unique_product_urls (ff : String → Option String) (now : String)
    (env : String → Option Document) (refs : List (String × String)) :
    (((processRefs ff now env refs ⟨[], [], []⟩ []).2).map Product.url).Nodup :=
  processRefs_nodup ff now env refs ⟨[], [], []⟩ [] (by simp) (by simp)

/-- The step `addUnique` preserves freedom from duplicates. -/
theorem addUnique_nodup (cond : String → Bool) (acc : List String) (t : String)
    (h : acc.Nodup) : (addUnique cond acc t).Nodup := by
  unfold addUnique
  split
  · rename_i hc
    simp only [Bool.and_eq_true, Bool.not_eq_true'] at hc
    have ht : t ∉ acc := by simpa using hc.2
    simp [List.nodup_append, h, ht]
  · exact h

/-- Folding a duplicate-avoiding step over any list keeps the
accumulator free of duplicates. -/
theorem foldl_preserve_nodup {α : Type} (f : List String → α → List String)
    (hf : ∀ acc x, acc.Nodup → (f acc x).Nodup) (l : List α) (acc : List String)
    (h : acc.Nodup) : (l.foldl f acc).Nodup := by
  induction l generalizing acc with
  | nil => exact h
  | cons x xs ih => exact ih _ (hf _ _ h)

/-- The selector-driven portion of the feature list never contains a
duplicate. -/
theorem featuresSelectorPhase_nodup (d : Document) : (featuresSelectorPhase d).Nodup := by
  unfold featuresSelectorPhase
  apply foldl_preserve_nodup _ (fun acc x h => addUnique_nodup _ _ _ h)
  apply foldl_preserve_nodup _ (fun acc x h => addUnique_nodup _ _ _ h)
  apply foldl_preserve_nodup _ (fun acc sel h =>
    foldl_preserve_nodup _ (fun a x hh => addUnique_nodup _ _ _ hh) _ _ h)
  exact List.nodup_nil

/-- The step `addLdProp` only appends. -/
theorem addLdProp_append (acc : List String) (p : Json) :
    ∃ t, addLdProp acc p = acc ++ t := by
  unfold addLdProp
  split
  · dsimp only
    split
    · exact ⟨_, rfl⟩
    · exact ⟨[], by simp⟩
  · exact ⟨[], by simp⟩

/-- Folding `addLdProp` only appends. -/
theorem foldl_addLdProp_append (items : List Json) (acc : List String) :
    ∃ t, items.foldl addLdProp acc = acc ++ t := by
  induction items generalizing acc with
  | nil => exact ⟨[], by simp⟩
  | cons x xs ih =>
    obtain ⟨t1, h1⟩ := addLdProp_append acc x
    obtain ⟨t2, h2⟩ := ih (addLdProp acc x)
    exact ⟨t1 ++ t2, by rw [List.foldl_cons, h2, h1, List.append_assoc]⟩

/-- One script step of the JSON-LD feature phase only appends. -/
theorem ldScriptFeatures_append (acc : List String) (s : Option Json) :
    ∃ t, ldScriptFeatures acc s = acc ++ t := by
  cases s with
  | none => exact ⟨[], by simp [ldScriptFeatures]⟩
  | some j =>
    cases j with
    | obj fields =>
      simp only [ldScriptFeatures]
      split
      · split
        · exact foldl_addLdProp_append _ _
        · exact ⟨[], by simp⟩
      · exact ⟨[], by simp⟩
    | null => exact ⟨[], by simp [ldScriptFeatures]⟩
    | str s => exact ⟨[], by simp [ldScriptFeatures]⟩
    | num n => exact ⟨[], by simp [ldScriptFeatures]⟩
    | arr items => exact ⟨[], by simp [ldScriptFeatures]⟩

/-- The JSON-LD feature phase only appends to the accumulated list. -/
theorem ldFeatures_append (scripts : List (Option Json)) (acc : List String) :
    ∃ t, ldFeatures acc scripts = acc ++ t := by
  induction scripts generalizing acc with
  | nil => exact ⟨[], by simp [ldFeatures]⟩
  | cons s rest ih =>
    obtain ⟨t1, h1⟩ := ldScriptFeatures_append acc s
    obtain ⟨t2, h2⟩ := ih (ldScriptFeatures acc s)
    exact ⟨t1 ++ t2, by rw [ldFeatures, h2, h1, List.append_assoc]⟩

/-- C1 (amended): the portion of the feature list produced by the
list-item selector families, the description bullet lists and the
rich-text bullet lists contains no duplicate and keeps insertion order
(it is an unchanged initial segment of the result); the
structured-metadata `additionalProperty` entries are appended after it
without any duplicate check. -/
theorem claim1_selector_features_deduped (d : Document) :
    (featuresSelectorPhase d).Nodup ∧
    ∃ metadataItems, extract_features d = featuresSelectorPhase d ++ metadataItems :=
  ⟨featuresSelectorPhase_nodup d, ldFeatures_append d.ldScripts (featuresSelectorPhase d)⟩

/-- A position whose head is not a dollar sign never matches the first
price pattern. -/
theorem matchP1At_not_dollar (c : Char) (cs : List Char) (h : c ≠ '$') :
    matchP1At (c :: cs) = none := by
  simp [matchP1At, h]

/-- The search for the first price pattern skips any dollar-free
region. -/
theorem searchP1_skip (p rest : List Char) (hp : ∀ c ∈ p, c ≠ '$') :
    searchWith matchP1At (p ++ rest) = searchWith matchP1At rest := by
  induction p with
  | nil => rfl
  | cons c p' ih =>
    have hc : c ≠ '$' := hp c (List.mem_cons_self c p')
    rw [List.cons_append, searchWith, matchP1At_not_dollar c _ hc]
    exact ih (fun x hx => hp x (List.mem_cons_of_mem c hx))

/-- At the dollar sign, the first price pattern captures the full
thousands-separated two-decimal amount, whatever follows. -/
theorem matchP1At_price (s : List Char) :
    matchP1At ('$' :: '1' :: ',' :: '2' :: '3' :: '4' :: '.' :: '5' :: '6' :: s)
      = some "1,234.56".data := rfl

/-- A leading non-digit stops the digit consumer. -/
theorem takeDigitsUpTo_stop (n : Nat) (s : List Char) (h : headNotDigit s = true) :
    takeDigitsUpTo n s = ([], s) := by
  cases n with
  | zero => rfl
  | succ n =>
    cases s with
    | nil => rfl
    | cons c rest =>
      have hc : isDigitChar c = false := by simpa [headNotDigit] using h
      simp [takeDigitsUpTo, hc]

/-- Without a leading thousands group the comma consumer stops. -/
theorem commaGroups_stop (s : List Char) (h : startsCommaGroup s = false) :
    commaGroups s = ([], s) := by
  unfold commaGroups
  split
  · rename_i d1 d2 d3 rest
    have hd : (isDigitChar d1 && isDigitChar d2 && isDigitChar d3) = false := by
      simpa [startsCommaGroup] using h
    simp [hd]
  · rfl

/-- Without a leading decimal tail the decimal consumer stops. -/
theorem decimalOpt_stop (s : List Char) (h : startsDecimal s = false) :
    decimalOpt s = ([], s) := by
  unfold decimalOpt
  split
  · rename_i d1 d2 rest
    have hd : (isDigitChar d1 && isDigitChar d2) = false := by
      simpa [startsDecimal] using h
    simp [hd]
  · rfl

/-- At the dollar sign of `$95`, when no digit, thousands group or
decimal tail follows, the first price pattern captures `95`. -/
theorem matchP1At_95 (s : List Char) (hd : headNotDigit s = true)
    (hcg : startsCommaGroup s = false) (hdec : startsDecimal s = false) :
    matchP1At ('$' :: '9' :: '5' :: s) = some ['9', '5'] := by
  have h1 : takeDigitsUpTo 1 s = ([], s) := takeDigitsUpTo_stop 1 s hd
  have h3 : takeDigitsUpTo 3 ('9' :: '5' :: s) = (['9', '5'], s) := by
    simp [takeDigitsUpTo, h1, isDigitChar]
  simp [matchP1At, h3, commaGroups_stop s hcg, decimalOpt_stop s hdec]

/-- C6 (amended): price extraction returns the first match of the
currency pattern in the page text.  Hence on a document whose text
contains `$1,234.56` with no earlier dollar sign it yields
`"$1,234.56"` (whatever follows the amount), and on a document whose
text contains `Your Price: $95` with no earlier dollar sign and with
the amount not extended to the right by a digit, a thousands group or
a decimal tail, it yields `"$95"` — for any float formatter. -/
theorem claim6_price_first_match (ff : String → Option String)
    (d₁ d₂ : Document) (p₁ s₁ p₂ s₂ : List Char)
    (h₁ : d₁.text = p₁ ++ "$1,234.56".data ++ s₁) (hp₁ : '$' ∉ p₁)
    (h₂ : d₂.text = p₂ ++ "Your Price: $95".data ++ s₂) (hp₂ : '$' ∉ p₂)
    (hd : headNotDigit s₂ = true) (hcg : startsCommaGroup s₂ = false)
    (hdec : startsDecimal s₂ = false) :
    extract_price ff d₁ = some "$1,234.56" ∧ extract_price ff d₂ = some "$95" := by
  constructor
  · have hsearch : searchWith matchP1At d₁.text = some "1,234.56".data := by
      rw [h₁, List.append_assoc,
          searchP1_skip p₁ _ (fun c hc => fun he => hp₁ (he ▸ hc))]
      show searchWith matchP1At
        ('$' :: '1' :: ',' :: '2' :: '3' :: '4' :: '.' :: '5' :: '6' :: s₁) = _
      rw [searchWith, matchP1At_price]
    rw [extract_price, hsearch]
    show some (dollarize ⟨"1,234.56".data⟩) = some "$1,234.56"
    decide
  · have hsearch : searchWith matchP1At d₂.text = some ['9', '5'] := by
      rw [h₂, List.append_assoc,
          searchP1_skip p₂ _ (fun c hc => fun he => hp₂ (he ▸ hc))]
      show searchWith matchP1At
        ('Y' :: 'o' :: 'u' :: 'r' :: ' ' :: 'P' :: 'r' :: 'i' :: 'c' :: 'e' ::
         ':' :: ' ' :: '$' :: '9' :: '5' :: s₂) = _
      rw [show ('Y' :: 'o' :: 'u' :: 'r' :: ' ' :: 'P' :: 'r' :: 'i' :: 'c' :: 'e' ::
            ':' :: ' ' :: '$' :: '9' :: '5' :: s₂)
          = ('Y' :: 'o' :: 'u' :: 'r' :: ' ' :: 'P' :: 'r' :: 'i' :: 'c' :: 'e' ::
              [':', ' ']) ++ ('$' :: '9' :: '5' :: s₂) from rfl]
      rw [searchP1_skip _ _ (by decide)]
      rw [searchWith, matchP1At_95 s₂ hd hcg hdec]
    rw [extract_price, hsearch]
    show some (dollarize ⟨['9', '5']⟩) = some "$95"
    decide

/-- C6 (witness): both generalized statements evaluated on concrete
documents whose texts are exactly the two spec strings. -/
theorem claim6_price_first_match_witness :
    extract_price ffNone ⟨"$1,234.56".data, fun _ => [], []⟩ = some "$1,234.56" ∧
    extract_price ffNone ⟨"Your Price: $95".data, fun _ => [], []⟩ = some "$95" :=
  claim6_price_first_match ffNone _ _ [] [] [] []
    (by decide) (by decide) (by decide) (by decide) (by decide) (by decide) (by decide)

/-- C6 (counterexample): a document whose text contains `$1,234.56`
preceded by another price yields that earlier price, not
`"$1,234.56"`; containment alone does not determine the result. -/
theorem claim6_counterexample :
    docC6.text = "$9.99 ".data ++ "$1,234.56".data ++ [] ∧
    extract_price ffNone docC6 = some "$9.99" ∧
    some "$9.99" ≠ some "$1,234.56" := by
  refine ⟨by decide, by decide, by decide⟩

/-- A cascade over selectors whose every strategy yields nothing
yields nothing. -/
theorem firstSome_none {α : Type} (f : String → Option α) (l : List String)
    (h : ∀ s ∈ l, f s = none) : firstSome f l = none := by
  induction l with
  | nil => rfl
  | cons s rest ih =>
    rw [firstSome, h s (List.mem_cons_self s rest)]
    exact ih (fun x hx => h x (List.mem_cons_of_mem s hx))

/-- C2 (amended): part-number extraction is a total function that
returns the sentinel `"UNKNOWN"` exactly when no strategy in the
cascade matches; but the result is not always non-empty, because the
container data-attribute strategy and the structured-metadata strategy
return the empty string when they match structurally with empty
values. -/
theorem claim2_unknown_fallback (d : Document)
    (h1 : searchWith matchPartHashAt d.text = none)
    (h2 : ∀ sel ∈ pnSelectors, d.selectOne sel = none)
    (h3 : d.selectOne pnContainerSel = none)
    (h4 : pnFromScripts d.ldScripts = none)
    (h5 : searchGenericPN d.text = none) :
    extract_part_number d = "UNKNOWN" := by
  have hfs : firstSome (fun sel => (d.selectOne sel).bind pnFromElem) pnSelectors = none :=
    firstSome_none _ _ (fun s hs => by rw [h2 s hs]; rfl)
  rw [extract_part_number, h1, hfs, h3, h4, h5]

/-- C2 (witness): the sentinel fallback on the empty document. -/
theorem claim2_unknown_fallback_witness :
    (∀ sel ∈ pnSelectors, emptyDoc.selectOne sel = none) ∧
    extract_part_number emptyDoc = "UNKNOWN" :=
  ⟨fun _ _ => rfl, claim2_unknown_fallback emptyDoc rfl (fun _ _ => rfl) rfl rfl rfl⟩

/-- C2 (counterexample): a document whose only part-number source is a
JSON-LD product block without `sku`, `mpn` or `productID` makes the
extraction return the empty string — not the sentinel `"UNKNOWN"` —
so the result can be empty. -/
theorem claim2_counterexample :
    extract_part_number docC2 = "" ∧ "" ≠ "UNKNOWN" := ⟨by decide, by decide⟩

/-- Each run of the load-more loop performs at most one click attempt
more than its fuel. -/
theorem loadMoreLoopF_attempts_le (env : CatEnv) (cap : Option Nat)
    (fuel : Nat) : ∀ (count attempts : Nat) (infos existing : List String),
    (loadMoreLoopF env cap fuel count attempts infos existing).attempts
      ≤ attempts + fuel + 1 := by
  induction fuel with
  | zero =>
    intro count attempts infos existing
    rw [loadMoreLoopF]
    split
    · dsimp only
      split
      · exact le_refl _
      · split
        · exact le_refl _
        · exact le_refl _
    · exact le_refl _
  | succ fuel ih =>
    intro count attempts infos existing
    rw [loadMoreLoopF]
    split
    · dsimp only
      split
      · show attempts + 1 ≤ attempts + (fuel + 1) + 1
        omega
      · split
        · show attempts + 1 ≤ attempts + (fuel + 1) + 1
          omega
        · exact le_trans (ih (count + 1) (attempts + 1) _ _) (by omega)
    · show attempts + 1 ≤ attempts + (fuel + 1) + 1
      omega

/-- C3 (amended): the load-more loop performs at most 51 click
attempts per category — not 50: `handle_load_more()` is the first
conjunct of the loop condition, so it is invoked once more after the
50th counted iteration, before the `load_more_count < 50` guard stops
the loop. -/
theorem claim3_load_more_attempts (env : CatEnv) (cap : Option Nat)
    (infos existing : List String) :
    (loadMoreLoop env cap infos existing).attempts ≤ 51 := by
  simpa using loadMoreLoopF_attempts_le env cap 50 0 0 infos existing

/-- The URLs are pairwise distinct. -/
theorem urlN_inj {i j : Nat} (h : urlN i = urlN j) : i = j := by
  have := congrArg (fun s => s.data.length) h
  simpa [urlN] using this

/-- The next URL is fresh. -/
theorem urlN_not_mem (k : Nat) : urlN k ∉ existingUpTo k := by
  intro hmem
  rw [existingUpTo] at hmem
  simp only [List.mem_map, List.mem_reverse, List.mem_range] at hmem
  obtain ⟨j, hj, hje⟩ := hmem
  exact absurd (urlN_inj hje.symm) (by omega)

theorem infosUpTo_succ (k : Nat) : infosUpTo (k + 1) = infosUpTo k ++ [urlN k] := by
  rw [infosUpTo, infosUpTo, List.range_succ, List.map_append]
  rfl

theorem existingUpTo_succ (k : Nat) : existingUpTo (k + 1) = urlN k :: existingUpTo k := by
  rw [existingUpTo, existingUpTo, List.range_succ]
  simp

/-- Merging one fresh reference appends it and counts one. -/
theorem mergeNew_fresh (u : String) (infos existing : List String) (h : u ∉ existing) :
    mergeNew [u] infos existing = ⟨infos ++ [u], u :: existing, 1⟩ := by
  have hc : existing.contains u = false := by simpa using h
  rw [mergeNew, hc]
  rfl

/-- Run of `envC3`: every counted iteration merges one fresh
reference, so the loop only stops at the count ceiling, after the
51st click attempt. -/
theorem envC3_run : ∀ (n k : Nat), k + n = 50 →
    loadMoreLoopF envC3 none n k k (infosUpTo k) (existingUpTo k)
      = ⟨50, 51, infosUpTo 50, existingUpTo 50⟩ := by
  intro n
  induction n with
  | zero =>
    intro k hk
    have hk50 : k = 50 := by omega
    subst hk50
    rw [loadMoreLoopF]
    rw [show (envC3.loadMore 50 && decide (50 < 50)) = false from rfl]
    rfl
  | succ n ih =>
    intro k hk
    have hk50 : k < 50 := by omega
    rw [loadMoreLoopF]
    rw [show envC3.loadMore k = true from rfl]
    rw [show decide (k < 50) = true from by simpa using hk50]
    rw [show (true && true) = true from rfl]
    dsimp only [if_true]
    rw [show envC3.loadMorePage k = [urlN k] from rfl]
    rw [mergeNew_fresh (urlN k) _ _ (urlN_not_mem k)]
    rw [← infosUpTo_succ, ← existingUpTo_succ]
    exact ih (k + 1) (by omega)

/-- C3 (counterexample): with every click succeeding and every
re-extraction yielding a fresh reference, the loop performs 51 click
attempts, so the cap of 50 claimed for click attempts is exceeded. -/
theorem claim3_counterexample :
    (loadMoreLoop envC3 none [] []).attempts = 51 ∧
    ¬ ((loadMoreLoop envC3 none [] []).attempts ≤ 50) := by
  have h : loadMoreLoop envC3 none [] [] = ⟨50, 51, infosUpTo 50, existingUpTo 50⟩ := by
    have h0 := envC3_run 50 0 (by omega)
    rw [show infosUpTo 0 = [] from rfl, show existingUpTo 0 = [] from rfl] at h0
    exact h0
  constructor
  · rw [h]
  · rw [h]
    decide

/-- The load-more loop never decreases the click counter. -/
theorem loadMoreLoopF_count_le (env : CatEnv) (cap : Option Nat)
    (fuel : Nat) : ∀ (count attempts : Nat) (infos existing : List String),
    count ≤ (loadMoreLoopF env cap fuel count attempts infos existing).count := by
  induction fuel with
  | zero =>
    intro count attempts infos existing
    rw [loadMoreLoopF]
    split
    · dsimp only
      split
      · show count ≤ count + 1
        omega
      · split
        · show count ≤ count + 1
          omega
        · show count ≤ count + 1
          omega
    · exact le_refl _
  | succ fuel ih =>
    intro count attempts infos existing
    rw [loadMoreLoopF]
    split
    · dsimp only
      split
      · show count ≤ count + 1
        omega
      · split
        · show count ≤ count + 1
          omega
        · exact le_trans (by omega : count ≤ count + 1) (ih (count + 1) (attempts + 1) _ _)
    · exact le_refl _

/-- A successful first click makes the counted clicks positive. -/
theorem loadMoreLoopF_count_pos (env : CatEnv) (cap : Option Nat)
    (fuel count attempts : Nat) (infos existing : List String)
    (h : env.loadMore attempts = true) (hc : count < 50) :
    1 ≤ (loadMoreLoopF env cap fuel count attempts infos existing).count := by
  have hcond : (env.loadMore attempts && decide (count < 50)) = true := by
    rw [h]
    simpa using hc
  rw [loadMoreLoopF, hcond]
  split
  · dsimp only
    split
    · show (1 : Nat) ≤ count + 1
      omega
    · split
      · show (1 : Nat) ≤ count + 1
        omega
      · match fuel with
        | 0 =>
          show (1 : Nat) ≤ count + 1
          omega
        | fuel' + 1 =>
          exact le_trans (by omega : (1 : Nat) ≤ count + 1)
            (loadMoreLoopF_count_le env cap fuel' (count + 1) (attempts + 1) _ _)
  · rename_i hfalse
    exact absurd rfl hfalse

/-- C4 (confirmed): when the load-more loop performs at least one
successful click — the first invocation always happens, so this is
exactly the condition that the first `handle_load_more()` reports
success — the button-pagination loop is never entered for that
category. -/
theorem claim4_mutual_exclusion (env : CatEnv) (cap : Option Nat)
    (infos existing : List String) (h : env.loadMore 0 = true) :
    (categoryPagination env cap infos existing).buttonEntered = false := by
  have h1 : 1 ≤ (loadMoreLoop env cap infos existing).count :=
    loadMoreLoopF_count_pos env cap 50 0 0 infos existing h (by omega)
  rw [categoryPagination]
  rw [if_neg (by omega : ¬ (loadMoreLoop env cap infos existing).count = 0)]

/-- C4 (witness): the mutual exclusion evaluated on an environment
whose first load-more click succeeds. -/
theorem claim4_mutual_exclusion_witness :
    envC4.loadMore 0 = true ∧
    (categoryPagination envC4 none [] []).buttonEntered = false :=
  ⟨rfl, claim4_mutual_exclusion envC4 none [] [] rfl⟩

/-- Merging references that are all already collected changes nothing
and counts zero new references. -/
theorem mergeNew_no_new (ps infos existing : List String)
    (h : ∀ u ∈ ps, u ∈ existing) :
    mergeNew ps infos existing = ⟨infos, existing, 0⟩ := by
  induction ps with
  | nil => rfl
  | cons p rest ih =>
    have hc : existing.contains p = true := by
      simpa using h p (List.mem_cons_self p rest)
    rw [mergeNew, hc]
    exact ih (fun u hu => h u (List.mem_cons_of_mem p hu))

/-- One successful-but-empty iteration of the button loop bumps the
page and the consecutive-empty counter. -/
theorem buttonLoopF_empty_step (env : CatEnv) (cap : Option Nat)
    (fuel page empty iters : Nat) (infos existing : List String)
    (hpage : page < 100) (hempty : empty < 3)
    (hcap : capReached cap infos = false)
    (hclick : env.clickNext iters = true)
    (hm : mergeNew (env.buttonPage iters) infos existing = ⟨infos, existing, 0⟩) :
    buttonLoopF env cap (fuel + 1) page empty iters infos existing
      = buttonLoopF env cap fuel (page + 1) (empty + 1) (iters + 1) infos existing := by
  rw [buttonLoopF]
  rw [show decide (page < 100) = true from by simpa using hpage]
  rw [show decide (empty < 3) = true from by simpa using hempty]
  rw [hcap, hclick, hm]
  rfl

/-- The button loop exits as soon as its condition fails. -/
theorem buttonLoopF_exit (env : CatEnv) (cap : Option Nat)
    (fuel page empty iters : Nat) (infos existing : List String)
    (h : (decide (page < 100) && decide (empty < 3)) = false) :
    buttonLoopF env cap fuel page empty iters infos existing
      = ⟨page, empty, iters, false, infos, existing⟩ := by
  rw [buttonLoopF, h]
  rfl

/-- C5 (confirmed): when every next-page click reports success, every
re-extraction yields zero new references and the cap does not
intervene, the button-pagination loop performs exactly 3 iterations —
not fewer, not more — and stops with the consecutive-empty counter at
3 and the page counter at 4. -/
theorem claim5_three_empty_pages (env : CatEnv) (cap : Option Nat)
    (infos existing : List String)
    (hclick : ∀ i, env.clickNext i = true)
    (hempty : ∀ i, ∀ u ∈ env.buttonPage i, u ∈ existing)
    (hcap : capReached cap infos = false) :
    buttonLoop env cap infos existing = ⟨4, 3, 3, false, infos, existing⟩ := by
  have hm : ∀ i, mergeNew (env.buttonPage i) infos existing = ⟨infos, existing, 0⟩ :=
    fun i => mergeNew_no_new _ _ _ (hempty i)
  rw [buttonLoop]
  rw [show (99 : Nat) = 98 + 1 from rfl,
      buttonLoopF_empty_step env cap 98 1 0 0 infos existing (by omega) (by omega)
        hcap (hclick 0) (hm 0)]
  rw [show (98 : Nat) = 97 + 1 from rfl,
      buttonLoopF_empty_step env cap 97 2 1 1 infos existing (by omega) (by omega)
        hcap (hclick 1) (hm 1)]
  rw [show (97 : Nat) = 96 + 1 from rfl,
      buttonLoopF_empty_step env cap 96 3 2 2 infos existing (by omega) (by omega)
        hcap (hclick 2) (hm 2)]
  exact buttonLoopF_exit env cap 96 4 3 3 infos existing (by decide)

/-- C5 (witness): the exact-three-pages termination evaluated on an
always-successful, always-empty environment. -/
theorem claim5_three_empty_pages_witness :
    (∀ i, envC5.clickNext i = true) ∧
    buttonLoop envC5 none [] [] = ⟨4, 3, 3, false, [], []⟩ :=
  ⟨fun _ => rfl,
   claim5_three_empty_pages envC5 none [] [] (fun _ => rfl)
     (fun _ u hu => absurd hu (List.not_mem_nil u)) rfl⟩

/-- C9 (amended): a configured positive per-category cap `N` truncates
the collected reference list to its first `N` entries — not a sample —
so at most `N` product pages are attempted; the Python truthiness
guard makes a cap of `0` disable the truncation instead. -/
theorem claim9_cap_truncates (n : Nat) (infos : List String) (h : 0 < n) :
    applyCap (some n) infos = infos.take n ∧
    (applyCap (some n) infos).length ≤ n := by
  have heq : applyCap (some n) infos = infos.take n := by
    rw [applyCap]
    split
    · rfl
    · rename_i hcond
      have hlen : infos.length ≤ n := by
        rcases Decidable.not_and_iff_or_not.mp hcond with h1 | h2
        · omega
        · omega
      rw [List.take_of_length_le hlen]
  refine ⟨heq, ?_⟩
  rw [heq]
  exact List.length_take_le n infos

/-- C9 (witness): the truncation evaluated at cap 2 over three
references. -/
theorem claim9_cap_truncates_witness :
    0 < 2 ∧
    (applyCap (some 2) ["a", "b", "c"] = ["a", "b", "c"].take 2 ∧
     (applyCap (some 2) ["a", "b", "c"]).length ≤ 2) :=
  ⟨by decide, claim9_cap_truncates 2 ["a", "b", "c"] (by decide)⟩

/-- C9 (counterexample): a configured cap of `0` is falsy in Python,
so the truncation is skipped and more than `N = 0` products are
attempted. -/
theorem claim9_counterexample :
    applyCap (some 0) ["u"] = ["u"] ∧
    ¬ ((applyCap (some 0) ["u"]).length ≤ 0) := by
  constructor
  · decide
  · decide

/-- C1 (counterexample): a document whose JSON-LD block repeats one
`additionalProperty` name/value pair produces a feature list with a
duplicate entry, so the extracted features list is not always
duplicate-free. -/
theorem claim1_counterexample :
    extract_features docC1 = ["Color: Red", "Color: Red"] ∧
    ¬ (extract_features docC1).Nodup := by
  constructor
  · decide
  · decide

end FleetPride
